import Mathlib

/-!
# Verification of the `qams_core` scoring and CSV engine

A shallow embedding of `src/lib.rs` (crate `qams_core`): the data model for
criteria, options and selections, the score aggregation (including the
fatal-override semantics), and the CSV import/export codec.

Rust strings are embedded as Lean `String`; the Rust standard-library string
operations used by the crate (`str::split` on a one-character pattern,
`str::trim`, `str::to_uppercase`, `str::parse::<i32>`, `Vec::join`) are
embedded as structural Lean functions over `String.data` with the same
observable behaviour, so that every definition evaluates by kernel reduction.
Rust `i32` values are embedded as `Int`; panics (`assert!`, `expect`) are
embedded as `Option`, with `none` marking the abort.
-/

/-! ## Embeddings of the Rust standard-library string operations -/

/-- One splitting step over a character list: `splitOnChar sep l` is the list
of chunks of `l` between occurrences of `sep`.  This is the behaviour of
Rust's `str::split` with a one-character pattern: `N` separators yield `N + 1`
chunks, adjacent separators yield empty chunks, and the empty string yields
`[[]]`. -/
def splitOnChar (sep : Char) : List Char → List (List Char)
  | [] => [[]]
  | c :: rest =>
    if c = sep then [] :: splitOnChar sep rest
    else
      match splitOnChar sep rest with
      | [] => [[c]]
      | chunk :: chunks => (c :: chunk) :: chunks

/-- Embedding of Rust `str::split` with a one-character pattern, at `String`
level. -/
def rustSplit (s : String) (sep : Char) : List String :=
  (splitOnChar sep s.data).map String.mk

/-- Embedding of Rust `str::trim`: drop whitespace characters from both ends.
(The crate only ever trims ASCII text, where Rust's Unicode `White_Space`
coincides with `Char.isWhitespace`.) -/
def rustTrim (s : String) : String :=
  ⟨((s.data.dropWhile Char.isWhitespace).reverse.dropWhile Char.isWhitespace).reverse⟩

/-- Embedding of Rust `str::to_uppercase`.  On the ASCII text this crate
compares against (`"FATAL"`), Rust's Unicode uppercasing is the
character-wise map `Char.toUpper`. -/
def rustToUppercase (s : String) : String :=
  ⟨s.data.map Char.toUpper⟩

/-- Embedding of Rust `Vec::join`: interleave the separator between the
parts; the empty vector joins to the empty string. -/
def joinSep (sep : String) : List String → String
  | [] => ""
  | [part] => part
  | part :: parts => part ++ sep ++ joinSep sep parts

/-- Value of a list of decimal digit characters, most significant first. -/
def digitsVal (l : List Char) : Nat :=
  l.foldl (fun acc c => 10 * acc + (c.toNat - 48)) 0

/-- Decimal value of a nonempty all-digit character list; `none` otherwise. -/
def natVal (l : List Char) : Option Nat :=
  if l ≠ [] ∧ l.all Char.isDigit then some (digitsVal l) else none

/-- The value denoted by a well-formed base-10 signed-integer string
(optional single leading `+` or `-`, then one or more ASCII digits), with no
range restriction; `none` when the text is not of that shape.  This is the
grammar accepted by Rust's `i32::from_str`, before its range check. -/
def base10Value (l : List Char) : Option Int :=
  match l with
  | [] => none
  | c :: rest =>
    if c = '+' then (natVal rest).map (fun n => (n : Int))
    else if c = '-' then (natVal rest).map (fun n => -(n : Int))
    else (natVal (c :: rest)).map (fun n => (n : Int))

/-- Embedding of Rust `str::parse::<i32>`: the base-10 signed-integer grammar
of `base10Value` together with the 32-bit signed range check; out-of-range
values are a parse failure (`none`), exactly as in Rust. -/
def parseI32 (s : String) : Option Int :=
  match base10Value s.data with
  | none => none
  | some n => if -(2 ^ 31) ≤ n ∧ n ≤ 2 ^ 31 - 1 then some n else none

/-! ## Constants of `lib.rs` -/

/-- `const CSV_ROW_DELIMITER: &str = "\n"` (as the character it splits on). -/
def CSV_ROW_DELIMITER : Char := '\n'

/-- `const CSV_COL_DELIMITER: &str = ","` (as the character it splits on). -/
def CSV_COL_DELIMITER : Char := ','

/-- `const FATAL_STR: &str = "FATAL"`. -/
def FATAL_STR : String := "FATAL"

/-- `const CRITERION_STR: &str = "Criterion"`. -/
def CRITERION_STR : String := "Criterion"

/-- `const SELECTION_STR: &str = "Selection"`. -/
def SELECTION_STR : String := "Selection"

/-- `const COMMENTS_STR: &str = "Comments"`. -/
def COMMENTS_STR : String := "Comments"

/-- `const SCORE_STR: &str = "Percent Score"`. -/
def SCORE_STR : String := "Percent Score"

/-! ## `CriterionOptionScore` -/

/-- `enum CriterionOptionScore { Points(i32), Fatal }`. -/
inductive CriterionOptionScore where
  /-- A point-value option: its value is added to the review's total. -/
  | Points (points : Int)
  /-- A fatal option: when selected, the review's total is 0 regardless of
  the other selections. -/
  | Fatal
deriving DecidableEq, Repr

/-- `CriterionOptionScore::from_str`: `Some(Fatal)` if `s` equals `"FATAL"`
case-insensitively, `Some(Points(n))` if `s` parses as an `i32`, otherwise
`None`. -/
def CriterionOptionScore.from_str (s : String) : Option CriterionOptionScore :=
  if rustToUppercase s = FATAL_STR then some .Fatal
  else
    match parseI32 s with
    | none => none
    | some points => some (.Points points)

/-! ## `CriterionOption` -/

/-- `struct CriterionOption { label: String, score: CriterionOptionScore }`. -/
structure CriterionOption where
  /-- Label for this criterion option. -/
  label : String
  /-- Scoring schema for this criterion option. -/
  score : CriterionOptionScore
deriving DecidableEq, Repr

/-- `CriterionOption::new`. -/
def CriterionOption.new (label : String) (score : CriterionOptionScore) :
    CriterionOption :=
  { label := label, score := score }

/-! ## `Criterion` -/

/-- `struct Criterion { label, options, selection_index, comment }`. -/
structure Criterion where
  /-- Label for this criterion. -/
  label : String
  /-- Options available for selection in this criterion. -/
  options : List CriterionOption
  /-- Index of the currently selected option, if a selection has been made. -/
  selection_index : Option Nat
  /-- Optional comment attached to this criterion in the review. -/
  comment : String
deriving DecidableEq, Repr

/-- `Criterion::new`: selection starts unset, comment starts empty. -/
def Criterion.new (label : String) (options : List CriterionOption) : Criterion :=
  { label := label, options := options, selection_index := none, comment := "" }

/-- `Criterion::set_selection_index`: `assert!(selection_index < options.len())`
then store the index.  The failed assertion (a Rust panic) is embedded as
`none`. -/
def Criterion.set_selection_index (c : Criterion) (i : Nat) : Option Criterion :=
  if i < c.options.length then some { c with selection_index := some i }
  else none

/-- `Criterion::selection`: the selected option, or `none` when unanswered
(or when the stored index is out of range, mirroring the `options.get`
match in the source). -/
def Criterion.selection (c : Criterion) : Option CriterionOption :=
  match c.selection_index with
  | some index =>
    match c.options.get? index with
    | some option => some option
    | none => none
  | none => none

/-- `Criterion::max_points`: fold over the options starting from 0, keeping
the largest `Points` value seen and ignoring `Fatal`. -/
def Criterion.max_points (c : Criterion) : Int :=
  c.options.foldl
    (fun acc option =>
      match option.score with
      | .Fatal => acc
      | .Points points => if points > acc then points else acc)
    0

/-- `Criterion::selection_score`: the score of the current selection, if any. -/
def Criterion.selection_score (c : Criterion) : Option CriterionOptionScore :=
  match c.selection with
  | some selection => some selection.score
  | none => none

/-- `Criterion::set_comment`. -/
def Criterion.set_comment (c : Criterion) (comment : String) : Criterion :=
  { c with comment := comment }

/-! ## `Review` -/

/-- `struct Review { criteria: Vec<Criterion> }`. -/
structure Review where
  /-- The criteria on which this review is conducted. -/
  criteria : List Criterion
deriving DecidableEq, Repr

/-- `Review::new`. -/
def Review.new (criteria : List Criterion) : Review :=
  { criteria := criteria }

/-- `Review::max_points`: the sum of each criterion's `max_points()`. -/
def Review.max_points (r : Review) : Int :=
  (r.criteria.map Criterion.max_points).sum

/-- Loop body of `Review::total_points`: walk the criteria with an
accumulator; an early `return 0` fires on the first `Fatal` selection. -/
def totalPointsLoop : Int → List Criterion → Int
  | acc, [] => acc
  | acc, c :: rest =>
    match c.selection_score with
    | some .Fatal => 0
    | some (.Points points) => totalPointsLoop (acc + points) rest
    | none => totalPointsLoop acc rest

/-- `Review::total_points`. -/
def Review.total_points (r : Review) : Int :=
  totalPointsLoop 0 r.criteria

/-! ### The percent-score string

`Review::percent_score` computes `100 as f32 * total as f32 / max as f32` and
`Review::percent_score_string` renders it with `format!("{:.2}%", _)`.  IEEE-754
`f32` arithmetic and Rust's float formatting are not representable in this
embedding; the definitions below model the formatted output at exact rational
precision: the quotient `100 * total / max` rounded to the nearest hundredth,
rendered with exactly two decimals and a `%` sign, and the IEEE-754
`NaN`/`inf`/`-inf` renderings when `max = 0`.  Every concrete value appearing
in the theorems of this file is one on which the `f32` computation is exact,
so the model and the source agree there. -/

/-- Decimal digits of `n`, most significant first, by fuel recursion
(structural, so it evaluates by kernel reduction). -/
def natDigitsAux : Nat → Nat → List Char → List Char
  | 0, _, acc => acc
  | fuel + 1, n, acc =>
    let acc := Char.ofNat (48 + n % 10) :: acc
    if n < 10 then acc else natDigitsAux fuel (n / 10) acc

/-- Decimal digit characters of `n`, most significant first. -/
def natDigits (n : Nat) : List Char :=
  natDigitsAux (n + 1) n []

/-- Decimal rendering of a natural number. -/
def natToString (n : Nat) : String :=
  ⟨natDigits n⟩

/-- `p / q` (with `q ≠ 0`) rounded to the nearest integer, ties away from
zero. -/
def roundNearest (p q : Int) : Int :=
  let qa : Int := q.natAbs
  let pa : Int := p * q.sign
  if 0 ≤ pa then (2 * pa + qa) / (2 * qa)
  else -((2 * (-pa) + qa) / (2 * qa))

/-- `n` rendered with at least two decimal digits (`7 ↦ "07"`). -/
def twoDigits (n : Nat) : String :=
  (if n < 10 then "0" else "") ++ natToString n

/-- Rational-precision model of `format!("{:.2}%", 100 as f32 * t as f32 / m
as f32)`: see the section comment above. -/
def percentString (t m : Int) : String :=
  if m = 0 then
    if t = 0 then "NaN%" else if 0 < t then "inf%" else "-inf%"
  else
    let h : Int := roundNearest (10000 * t) m
    (if h < 0 then "-" else "") ++ natToString (h.natAbs / 100) ++ "." ++
      twoDigits (h.natAbs % 100) ++ "%"

/-- `Review::percent_score_string` (via the rational-precision model of the
`f32` formatting, see above). -/
def Review.percent_score_string (r : Review) : String :=
  percentString r.total_points r.max_points

/-! ### CSV import -/

/-- Inner loop of `Review::from_csv` (`for i in 1..row.len()`), walking the
tails `header[1..]` and `row[1..]` in lockstep: a cell whose text parses as a
score contributes a `CriterionOption` labelled by the header cell at the same
index (`header.get(i).expect(..)`, whose panic is embedded as `none`); a cell
that does not parse is skipped. -/
def optionsFromCells : List String → List String → Option (List CriterionOption)
  | _, [] => some []
  | header, cell :: cells =>
    match CriterionOptionScore.from_str cell with
    | some score =>
      match header with
      | [] => none
      | headerLabel :: headerRest =>
        (optionsFromCells headerRest cells).map
          (fun rest => CriterionOption.new headerLabel score :: rest)
    | none => optionsFromCells (header.drop 1) cells

/-- Outer loop of `Review::from_csv` over the data rows: split each line on
the column delimiter, `assert_eq!` the column count against the header
(failure embedded as `none`), take the criterion label from column 0
(`row.get(0).expect(..)`), and collect the options from the remaining
columns. -/
def buildCriteria (header : List String) : List String → Option (List Criterion)
  | [] => some []
  | line :: rest =>
    let row := rustSplit line CSV_COL_DELIMITER
    if row.length = header.length then
      match row.head? with
      | none => none
      | some criterionLabel =>
        match optionsFromCells (header.drop 1) (row.drop 1) with
        | none => none
        | some options =>
          match buildCriteria header rest with
          | none => none
          | some criteria => some (Criterion.new criterionLabel options :: criteria)
    else none

/-- `Review::from_csv`: trim the input, split it into lines, read the header
row (`lines.get(0).expect(..)`, embedded as `none` on failure), then build
one criterion per remaining line.  Every Rust panic on this path is embedded
as `none`: a `none` result is an aborted import with no `Review` produced. -/
def Review.from_csv (csv : String) : Option Review :=
  let csv := rustTrim csv
  let lines := rustSplit csv CSV_ROW_DELIMITER
  match lines.head? with
  | none => none
  | some headerLine =>
    let header := rustSplit headerLine CSV_COL_DELIMITER
    match buildCriteria header (lines.drop 1) with
    | none => none
    | some criteria => some { criteria := criteria }

/-! ### CSV export -/

/-- `Review::to_csv`: a header row, a percent-score row, then one row per
criterion (label, selected option's label or empty, comment); cells joined by
the column delimiter, rows joined by the row delimiter. -/
def Review.to_csv (r : Review) : String :=
  let data : List (List String) :=
    [CRITERION_STR, SELECTION_STR, COMMENTS_STR] ::
    [SCORE_STR, r.percent_score_string, ""] ::
    r.criteria.map (fun criterion =>
      [criterion.label,
       (match criterion.selection with
        | some option => option.label
        | none => ""),
       criterion.comment])
  let rows : List String := data.map (joinSep (String.mk [CSV_COL_DELIMITER]))
  joinSep (String.mk [CSV_ROW_DELIMITER]) rows

/-! ## Helper lemmas -/

/-- `totalPointsLoop` returns 0 from any accumulator as soon as some
criterion's selection is `Fatal`. -/
lemma totalPointsLoop_of_fatal (l : List Criterion) (acc : Int)
    (h : ∃ c ∈ l, c.selection_score = some CriterionOptionScore.Fatal) :
    totalPointsLoop acc l = 0 := by
  induction l generalizing acc with
  | nil => rcases h with ⟨c, hc, -⟩; cases hc
  | cons x xs ih =>
    rcases h with ⟨c, hc, hf⟩
    rcases List.mem_cons.mp hc with rfl | hmem
    · simp [totalPointsLoop, hf]
    · cases hx : x.selection_score with
      | none => simpa [totalPointsLoop, hx] using ih acc ⟨c, hmem, hf⟩
      | some sc =>
        cases sc with
        | Fatal => simp [totalPointsLoop, hx]
        | Points p => simpa [totalPointsLoop, hx] using ih (acc + p) ⟨c, hmem, hf⟩

/-- With no `Fatal` selection, `totalPointsLoop` adds the selected `Points`
values to the accumulator (unanswered criteria contribute 0). -/
lemma totalPointsLoop_of_no_fatal (l : List Criterion) (acc : Int)
    (h : ∀ c ∈ l, c.selection_score ≠ some CriterionOptionScore.Fatal) :
    totalPointsLoop acc l = acc + (l.map fun c =>
      match c.selection_score with
      | some (CriterionOptionScore.Points p) => p
      | _ => 0).sum := by
  induction l generalizing acc with
  | nil => simp [totalPointsLoop]
  | cons x xs ih =>
    have hxs : ∀ c ∈ xs, c.selection_score ≠ some CriterionOptionScore.Fatal :=
      fun c hc => h c (List.mem_cons_of_mem _ hc)
    cases hx : x.selection_score with
    | none =>
      rw [show totalPointsLoop acc (x :: xs) = totalPointsLoop acc xs by
        simp [totalPointsLoop, hx], ih acc hxs]
      simp [hx]
    | some sc =>
      cases sc with
      | Fatal => exact absurd hx (h x (List.mem_cons_self _ _))
      | Points p =>
        rw [show totalPointsLoop acc (x :: xs) = totalPointsLoop (acc + p) xs by
          simp [totalPointsLoop, hx], ih (acc + p) hxs]
        simp [hx]
        ring

/-- The score folded in `Criterion::max_points`, as a `filterMap`. -/
def pointsOf (o : CriterionOption) : Option Int :=
  match o.score with
  | CriterionOptionScore.Points p => some p
  | CriterionOptionScore.Fatal => none

/-- The `max_points` fold computes the maximum of the accumulator and the
non-`Fatal` point values. -/
lemma foldl_max_points (l : List CriterionOption) (a : Int) (ha : 0 ≤ a) :
    l.foldl
      (fun acc option =>
        match option.score with
        | CriterionOptionScore.Fatal => acc
        | CriterionOptionScore.Points points =>
          if points > acc then points else acc)
      a
    = max a ((l.filterMap pointsOf).foldr max 0) := by
  induction l generalizing a with
  | nil => simp [max_eq_left ha]
  | cons o l ih =>
    cases ho : o.score with
    | Fatal => simp [ho, pointsOf, ih a ha]
    | Points p =>
      have hstep : (if p > a then p else a) = max a p := by
        rcases le_or_lt p a with h | h
        · simp [not_lt.mpr h, max_eq_left h]
        · simp [h, max_eq_right h.le]
      have hnn : 0 ≤ max a p := le_trans ha (le_max_left a p)
      simp only [List.foldl_cons, List.filterMap_cons, pointsOf, ho,
        List.foldr_cons, hstep, ih (max a p) hnn]
      rw [max_assoc]

/-- A fold of `max` over a list of negative values, started at 0, stays 0. -/
lemma foldr_max_of_neg (l : List Int) (h : ∀ p ∈ l, p < 0) :
    l.foldr max 0 = 0 := by
  induction l with
  | nil => rfl
  | cons p l ih =>
    have hp : p < 0 := h p (List.mem_cons_self _ _)
    rw [List.foldr_cons, ih (fun q hq => h q (List.mem_cons_of_mem _ hq)),
      max_eq_right hp.le]

/-- Swapping one criterion for another with the same `max_points` leaves the
summed `max_points` of a criteria list unchanged. -/
lemma sum_map_set_of_eq (l : List Criterion) (i : Nat) (c c' : Criterion)
    (h : l.get? i = some c) (he : c'.max_points = c.max_points) :
    ((l.set i c').map Criterion.max_points).sum
      = (l.map Criterion.max_points).sum := by
  induction l generalizing i with
  | nil => cases h
  | cons x xs ih =>
    cases i with
    | zero =>
      have hx : x = c := by simpa using h
      subst hx
      simp [he]
    | succ n =>
      have := ih n (by simpa using h)
      simp only [List.set_cons_succ, List.map_cons, List.sum_cons, this]

/-! ## Claim theorems: scoring -/

/-- **C1.** If some criterion's current selection resolves to `Fatal`, then
`Review::total_points` returns 0, wherever the fatal selection occurs; with
no fatal selection, it returns the sum of the selected options' `Points`
values, unanswered criteria contributing 0. -/
theorem total_points_spec (r : Review) :
    ((∃ c ∈ r.criteria, c.selection_score = some CriterionOptionScore.Fatal) →
      r.total_points = 0) ∧
    ((∀ c ∈ r.criteria, c.selection_score ≠ some CriterionOptionScore.Fatal) →
      r.total_points = (r.criteria.map fun c =>
        match c.selection_score with
        | some (CriterionOptionScore.Points p) => p
        | _ => 0).sum) := by
  constructor
  · intro h
    exact totalPointsLoop_of_fatal r.criteria 0 h
  · intro h
    rw [Review.total_points, totalPointsLoop_of_no_fatal r.criteria 0 h,
      zero_add]

/-- Witness for `total_points_spec`: a review whose second criterion has a
fatal selection totals 0 even though its first criterion has 5 points
selected; the same review without the fatal selection totals 5. -/
theorem total_points_spec_witness :
    Review.total_points
      ⟨[⟨"A", [⟨"Y", CriterionOptionScore.Points 5⟩], some 0, ""⟩,
        ⟨"B", [⟨"F", CriterionOptionScore.Fatal⟩], some 0, ""⟩]⟩ = 0 ∧
    Review.total_points
      ⟨[⟨"A", [⟨"Y", CriterionOptionScore.Points 5⟩], some 0, ""⟩,
        ⟨"B", [⟨"F", CriterionOptionScore.Fatal⟩], none, ""⟩]⟩ = 5 := by
  constructor
  · exact (total_points_spec _).1
      ⟨⟨"B", [⟨"F", CriterionOptionScore.Fatal⟩], some 0, ""⟩,
        by decide, by decide⟩
  · have h := (total_points_spec
      ⟨[⟨"A", [⟨"Y", CriterionOptionScore.Points 5⟩], some 0, ""⟩,
        ⟨"B", [⟨"F", CriterionOptionScore.Fatal⟩], none, ""⟩]⟩).2 (by decide)
    rw [h]
    decide

/-- **C2.** `Criterion::max_points` is `max(0, max of the Points values)`,
`Fatal` options excluded from the maximum; it is 0 for an empty option list,
for an all-`Fatal` option list, and when every `Points` value is negative. -/
theorem criterion_max_points_spec (c : Criterion) :
    c.max_points = max 0 ((c.options.filterMap pointsOf).foldr max 0) ∧
    (c.options = [] → c.max_points = 0) ∧
    ((∀ o ∈ c.options, o.score = CriterionOptionScore.Fatal) →
      c.max_points = 0) ∧
    ((∀ o ∈ c.options, ∀ p, o.score = CriterionOptionScore.Points p → p < 0) →
      c.max_points = 0) := by
  have hmain : c.max_points = max 0 ((c.options.filterMap pointsOf).foldr max 0) :=
    foldl_max_points c.options 0 le_rfl
  refine ⟨hmain, ?_, ?_, ?_⟩
  · intro h
    rw [hmain, h]
    rfl
  · intro h
    rw [hmain, List.filterMap_eq_nil_iff.mpr fun o ho => by
      simp [pointsOf, h o ho]]
    rfl
  · intro h
    rw [hmain, foldr_max_of_neg _ fun p hp => ?_, max_self]
    rcases List.mem_filterMap.mp hp with ⟨o, ho, hpo⟩
    cases hsc : o.score with
    | Fatal => simp [pointsOf, hsc] at hpo
    | Points q =>
      have : q = p := by simpa [pointsOf, hsc] using hpo
      exact this ▸ h o ho q hsc

/-- Witness for `criterion_max_points_spec`: a criterion with options worth
3/2/1/0 points has `max_points = 3`; an all-`Fatal` criterion has
`max_points = 0`. -/
theorem criterion_max_points_spec_witness :
    Criterion.max_points
      (Criterion.new "Criterion 1"
        [CriterionOption.new "YES" (CriterionOptionScore.Points 3),
         CriterionOption.new "MOSTLY" (CriterionOptionScore.Points 2),
         CriterionOption.new "PARTLY" (CriterionOptionScore.Points 1),
         CriterionOption.new "NO" (CriterionOptionScore.Points 0)]) = 3 ∧
    Criterion.max_points
      (Criterion.new "AllFatal"
        [CriterionOption.new "F" CriterionOptionScore.Fatal]) = 0 := by
  constructor
  · rw [(criterion_max_points_spec _).1]
    decide
  · exact (criterion_max_points_spec _).2.2.1 (by decide)

/-- **C3.** `Review::max_points` is the sum of the criteria's `max_points`,
and is unchanged by mutating any criterion's selection (via
`set_selection_index`) or comment (via `set_comment`). -/
theorem review_max_points_spec (r : Review) :
    r.max_points = (r.criteria.map Criterion.max_points).sum ∧
    (∀ i j c c', r.criteria.get? i = some c →
      c.set_selection_index j = some c' →
      Review.max_points ⟨r.criteria.set i c'⟩ = r.max_points) ∧
    (∀ i c s, r.criteria.get? i = some c →
      Review.max_points ⟨r.criteria.set i (c.set_comment s)⟩ = r.max_points) := by
  refine ⟨rfl, ?_, ?_⟩
  · intro i j c c' h hset
    rw [Criterion.set_selection_index] at hset
    split at hset
    · cases hset
      exact sum_map_set_of_eq r.criteria i c _ h rfl
    · cases hset
  · intro i c s h
    exact sum_map_set_of_eq r.criteria i c _ h rfl

/-- Witness for `review_max_points_spec`: selecting an option and setting a
comment on a concrete one-criterion review leaves `max_points` at 3. -/
theorem review_max_points_spec_witness :
    Review.max_points
      ⟨[⟨"A", [⟨"Y", CriterionOptionScore.Points 3⟩], none, ""⟩].set 0
        ⟨"A", [⟨"Y", CriterionOptionScore.Points 3⟩], some 0, ""⟩⟩
      = Review.max_points ⟨[⟨"A", [⟨"Y", CriterionOptionScore.Points 3⟩], none, ""⟩]⟩ ∧
    Review.max_points
      ⟨[⟨"A", [⟨"Y", CriterionOptionScore.Points 3⟩], none, ""⟩].set 0
        (Criterion.set_comment ⟨"A", [⟨"Y", CriterionOptionScore.Points 3⟩], none, ""⟩ "hi")⟩
      = Review.max_points ⟨[⟨"A", [⟨"Y", CriterionOptionScore.Points 3⟩], none, ""⟩]⟩ := by
  constructor
  · exact (review_max_points_spec
      ⟨[⟨"A", [⟨"Y", CriterionOptionScore.Points 3⟩], none, ""⟩]⟩).2.1 0 0
      ⟨"A", [⟨"Y", CriterionOptionScore.Points 3⟩], none, ""⟩ _ (by decide) (by decide)
  · exact (review_max_points_spec
      ⟨[⟨"A", [⟨"Y", CriterionOptionScore.Points 3⟩], none, ""⟩]⟩).2.2 0
      ⟨"A", [⟨"Y", CriterionOptionScore.Points 3⟩], none, ""⟩ "hi" (by decide)

/-- **C8.** `Criterion::set_selection_index` with an in-range index succeeds,
stores the index, and afterwards `selection` returns the option at that
index; with an out-of-range index it aborts (embedded as `none`), so under
the in-range precondition the abort branch is unreachable. -/
theorem set_selection_index_spec (c : Criterion) (i : Nat) :
    (∀ h : i < c.options.length,
      c.set_selection_index i = some { c with selection_index := some i } ∧
      ({ c with selection_index := some i } : Criterion).selection
        = some (c.options.get ⟨i, h⟩)) ∧
    (c.options.length ≤ i → c.set_selection_index i = none) := by
  constructor
  · intro h
    refine ⟨by rw [Criterion.set_selection_index, if_pos h], ?_⟩
    rw [Criterion.selection]
    simp [List.get?_eq_get h, List.getElem?_eq_getElem h]
  · intro h
    rw [Criterion.set_selection_index, if_neg (not_lt.mpr h)]

/-- Witness for `set_selection_index_spec`: selecting index 2 of a
four-option criterion succeeds and selects `PARTLY`; selecting index 4
aborts. -/
theorem set_selection_index_spec_witness :
    Criterion.set_selection_index
      (Criterion.new "Criterion 1"
        [CriterionOption.new "YES" (CriterionOptionScore.Points 3),
         CriterionOption.new "MOSTLY" (CriterionOptionScore.Points 2),
         CriterionOption.new "PARTLY" (CriterionOptionScore.Points 1),
         CriterionOption.new "NO" (CriterionOptionScore.Points 0)]) 2
      = some ⟨"Criterion 1",
        [CriterionOption.new "YES" (CriterionOptionScore.Points 3),
         CriterionOption.new "MOSTLY" (CriterionOptionScore.Points 2),
         CriterionOption.new "PARTLY" (CriterionOptionScore.Points 1),
         CriterionOption.new "NO" (CriterionOptionScore.Points 0)], some 2, ""⟩ ∧
    Criterion.set_selection_index
      (Criterion.new "Criterion 1"
        [CriterionOption.new "YES" (CriterionOptionScore.Points 3),
         CriterionOption.new "MOSTLY" (CriterionOptionScore.Points 2),
         CriterionOption.new "PARTLY" (CriterionOptionScore.Points 1),
         CriterionOption.new "NO" (CriterionOptionScore.Points 0)]) 4 = none := by
  constructor
  · exact ((set_selection_index_spec _ 2).1 (by decide)).1
  · exact (set_selection_index_spec _ 4).2 (by decide)

/-! ## Helper lemmas: the score parser -/

/-- Uppercasing fixes decimal digits. -/
lemma digit_toUpper (c : Char) (h : c.isDigit = true) : c.toUpper = c := by
  simp [Char.isDigit] at h
  unfold Char.toUpper
  rw [if_neg]
  rintro ⟨h1, h2⟩
  simp [Char.toNat, UInt32.toNat] at h1 h2
  obtain ⟨ha, hb⟩ := h
  rw [UInt32.le_def] at ha hb
  simp [BitVec.le_def] at ha hb
  omega

/-- A nonempty all-digit list ends in a digit. -/
lemma getLast?_digit (l : List Char) (hne : l ≠ [])
    (hall : l.all Char.isDigit = true) :
    ∃ d, l.getLast? = some d ∧ d.isDigit = true := by
  induction l with
  | nil => cases hne rfl
  | cons c rest ih =>
    cases rest with
    | nil => exact ⟨c, rfl, by simpa using hall⟩
    | cons c2 r2 =>
      have hall2 : (c2 :: r2).all Char.isDigit = true := by
        rw [List.all_cons, Bool.and_eq_true] at hall
        exact hall.2
      obtain ⟨d, hd, hdig⟩ := ih (by simp) hall2
      exact ⟨d, by rw [List.getLast?_cons_cons]; exact hd, hdig⟩

/-- `natVal` succeeds only on nonempty all-digit lists. -/
lemma natVal_some_conds (l : List Char) (v : Nat) (h : natVal l = some v) :
    l ≠ [] ∧ l.all Char.isDigit = true := by
  unfold natVal at h
  split at h
  · next h1 => exact ⟨h1.1, h1.2⟩
  · cases h

/-- A list accepted by the base-10 signed-integer grammar ends in a digit. -/
lemma base10Value_getLast_digit (l : List Char) (n : Int)
    (h : base10Value l = some n) :
    ∃ d, l.getLast? = some d ∧ d.isDigit = true := by
  cases l with
  | nil => cases h
  | cons c rest =>
    rw [base10Value] at h
    split_ifs at h with h1 h2
    · cases hv : natVal rest with
      | none => rw [hv] at h; cases h
      | some v =>
        obtain ⟨hne, hall⟩ := natVal_some_conds rest v hv
        obtain ⟨d, hd, hdig⟩ := getLast?_digit rest hne hall
        refine ⟨d, ?_, hdig⟩
        cases rest with
        | nil => cases hne rfl
        | cons a b => rw [List.getLast?_cons_cons]; exact hd
    · cases hv : natVal rest with
      | none => rw [hv] at h; cases h
      | some v =>
        obtain ⟨hne, hall⟩ := natVal_some_conds rest v hv
        obtain ⟨d, hd, hdig⟩ := getLast?_digit rest hne hall
        refine ⟨d, ?_, hdig⟩
        cases rest with
        | nil => cases hne rfl
        | cons a b => rw [List.getLast?_cons_cons]; exact hd
    · cases hv : natVal (c :: rest) with
      | none => rw [hv] at h; cases h
      | some v =>
        obtain ⟨-, hall⟩ := natVal_some_conds _ v hv
        exact getLast?_digit (c :: rest) (by simp) hall

/-- Text accepted by the signed-integer grammar never uppercases to
`"FATAL"` (its last character is a digit, not `L`). -/
lemma not_fatal_of_base10Value (s : String) (n : Int)
    (h : base10Value s.data = some n) :
    rustToUppercase s ≠ FATAL_STR := by
  intro heq
  obtain ⟨d, hd, hdig⟩ := base10Value_getLast_digit s.data n h
  have hdata : s.data.map Char.toUpper = FATAL_STR.data := congrArg String.data heq
  have h1 : (s.data.map Char.toUpper).getLast? = some (Char.toUpper d) := by
    rw [List.getLast?_map, hd]; rfl
  rw [hdata] at h1
  have h2 : Char.toUpper d = 'L' := by
    have hL : (FATAL_STR.data).getLast? = some 'L' := by decide
    rw [hL] at h1
    injection h1 with h1
    exact h1.symm
  rw [digit_toUpper d hdig] at h2
  subst h2
  exact absurd hdig (by decide)

/-- Text accepted by `parseI32` never uppercases to `"FATAL"`. -/
lemma parseI32_not_fatal (s : String) (n : Int) (h : parseI32 s = some n) :
    rustToUppercase s ≠ FATAL_STR := by
  unfold parseI32 at h
  cases hb : base10Value s.data with
  | none => rw [hb] at h; cases h
  | some m => exact not_fatal_of_base10Value s m hb

/-! ## Claim theorems: the score parser -/

/-- **C7.** `CriterionOptionScore::from_str` returns `Fatal` exactly when the
input uppercases to `"FATAL"` (so `"fatal"`, `"FATAL"`, `"Fatal"` all do),
returns `Points(n)` exactly when the input parses as a base-10 signed 32-bit
integer `n`, and otherwise returns `none` (e.g. on `"3.5"`, `"abc"`, `""`),
never an error. -/
theorem from_str_spec (s : String) :
    (CriterionOptionScore.from_str s = some CriterionOptionScore.Fatal ↔
      rustToUppercase s = FATAL_STR) ∧
    (∀ n : Int,
      CriterionOptionScore.from_str s = some (CriterionOptionScore.Points n) ↔
      parseI32 s = some n) ∧
    (rustToUppercase s ≠ FATAL_STR →
      CriterionOptionScore.from_str s
        = (parseI32 s).map CriterionOptionScore.Points) ∧
    CriterionOptionScore.from_str "fatal" = some CriterionOptionScore.Fatal ∧
    CriterionOptionScore.from_str "FATAL" = some CriterionOptionScore.Fatal ∧
    CriterionOptionScore.from_str "Fatal" = some CriterionOptionScore.Fatal ∧
    CriterionOptionScore.from_str "3.5" = none ∧
    CriterionOptionScore.from_str "abc" = none ∧
    CriterionOptionScore.from_str "" = none := by
  refine ⟨?_, ?_, ?_, by decide, by decide, by decide, by decide, by decide,
    by decide⟩
  · by_cases hf : rustToUppercase s = FATAL_STR
    · simp [CriterionOptionScore.from_str, hf]
    · cases hp : parseI32 s <;> simp [CriterionOptionScore.from_str, hf, hp]
  · intro n
    by_cases hf : rustToUppercase s = FATAL_STR
    · simp only [CriterionOptionScore.from_str, if_pos hf]
      constructor
      · intro h
        cases h
      · intro hp
        exact absurd hf (parseI32_not_fatal s n hp)
    · cases hp : parseI32 s <;> simp [CriterionOptionScore.from_str, hf, hp]
  · intro hf
    cases hp : parseI32 s <;> simp [CriterionOptionScore.from_str, hf, hp]

/-- Witness for `from_str_spec`: `"7"` parses to `Points 7`, and `"-12"`
parses to `Points (-12)`. -/
theorem from_str_spec_witness :
    CriterionOptionScore.from_str "7" = some (CriterionOptionScore.Points 7) ∧
    CriterionOptionScore.from_str "-12"
      = some (CriterionOptionScore.Points (-12)) :=
  ⟨((from_str_spec "7").2.1 7).mpr (by decide),
   ((from_str_spec "-12").2.1 (-12)).mpr (by decide)⟩

/-- **C10.** A numeric string whose base-10 value lies outside the signed
32-bit range is rejected by `CriterionOptionScore::from_str` even though it
is a well-formed base-10 signed integer, and consequently `Review::from_csv`
silently skips such a cell, attaching no option for that column. -/
theorem from_str_out_of_range (s : String) (n : Int)
    (h1 : base10Value s.data = some n)
    (h2 : n < -(2 ^ 31) ∨ 2 ^ 31 - 1 < n) :
    CriterionOptionScore.from_str s = none ∧
    Review.from_csv "C,O\nX,3000000000"
      = some { criteria := [Criterion.new "X" []] } := by
  refine ⟨?_, by decide⟩
  have hf := not_fatal_of_base10Value s n h1
  have hp : parseI32 s = none := by
    simp only [parseI32, h1]
    rw [if_neg]
    rintro ⟨ha, hb⟩
    rcases h2 with h | h <;> omega
  rw [CriterionOptionScore.from_str, if_neg hf, hp]

/-- Witness for `from_str_out_of_range`: `"3000000000"` exceeds
`2^31 - 1 = 2147483647` and is rejected. -/
theorem from_str_out_of_range_witness :
    CriterionOptionScore.from_str "3000000000" = none ∧
    Review.from_csv "C,O\nX,3000000000"
      = some { criteria := [Criterion.new "X" []] } :=
  from_str_out_of_range "3000000000" 3000000000 (by decide) (by decide)

/-! ## Helper lemmas: CSV import failure -/

/-- `buildCriteria` aborts whenever some line's column count differs from the
header's column count. -/
lemma buildCriteria_none_of_mismatch (header : List String)
    (lines : List String) (line : String) (hmem : line ∈ lines)
    (hbad : (rustSplit line CSV_COL_DELIMITER).length ≠ header.length) :
    buildCriteria header lines = none := by
  induction lines with
  | nil => cases hmem
  | cons l ls ih =>
    rcases List.mem_cons.mp hmem with rfl | hmem2
    · simp only [buildCriteria]
      rw [if_neg hbad]
    · simp only [buildCriteria]
      by_cases hlen : (rustSplit l CSV_COL_DELIMITER).length = header.length
      · rw [if_pos hlen]
        cases hh : (rustSplit l CSV_COL_DELIMITER).head? with
        | none => rfl
        | some lbl =>
          cases ho : optionsFromCells (header.drop 1)
              ((rustSplit l CSV_COL_DELIMITER).drop 1) with
          | none => rfl
          | some opts => rw [ih hmem2]
      · rw [if_neg hlen]

/-! ## Claim theorems: CSV import failure -/

/-- **C5 (amended).** `Review::from_csv` aborts, producing no `Review`,
whenever some data row's column count differs from the header row's column
count.  (It cannot abort for lack of rows: splitting always yields at least
one row, see `from_csv_no_rows_counterexample`.) -/
theorem from_csv_mismatch_fails (csv headerLine line : String)
    (h0 : (rustSplit (rustTrim csv) CSV_ROW_DELIMITER).head? = some headerLine)
    (hline : line ∈ (rustSplit (rustTrim csv) CSV_ROW_DELIMITER).drop 1)
    (hbad : (rustSplit line CSV_COL_DELIMITER).length
      ≠ (rustSplit headerLine CSV_COL_DELIMITER).length) :
    Review.from_csv csv = none := by
  simp only [Review.from_csv, h0]
  rw [buildCriteria_none_of_mismatch (rustSplit headerLine CSV_COL_DELIMITER)
    ((rustSplit (rustTrim csv) CSV_ROW_DELIMITER).drop 1) line hline hbad]

/-- Witness for `from_csv_mismatch_fails`: a two-column header with a
one-column data row makes the import abort. -/
theorem from_csv_mismatch_fails_witness :
    Review.from_csv "a,b\nx" = none :=
  from_csv_mismatch_fails "a,b\nx" "a,b" "x" (by decide) (by decide) (by decide)

/-- **C5 (counterexample to the claim as stated).** An input with no rows
does not make `from_csv` fail: on the empty input — which contains no rows
of data at all — `from_csv` returns a `Review` (with no criteria) instead of
aborting, because splitting always yields at least one (possibly empty) row,
so the header fetch that the claim's failure mode refers to cannot fail. -/
theorem from_csv_no_rows_counterexample :
    Review.from_csv "" = some { criteria := [] } ∧
    Review.from_csv "" ≠ none := by
  exact ⟨by decide, by decide⟩

/-! ## Helper lemmas: CSV export shape -/

/-- Folding `++` from an arbitrary start factors the start out front. -/
lemma foldl_append_factor (l : List String) (x : String) :
    l.foldl (fun r s => r ++ s) x = x ++ l.foldl (fun r s => r ++ s) "" := by
  induction l generalizing x with
  | nil => simp [String.append_empty]
  | cons y ys ih =>
    simp only [List.foldl_cons]
    rw [ih (x ++ y), ih ("" ++ y), String.empty_append, String.append_assoc]

/-- `String.join` unfolds one element at a time. -/
lemma join_cons (a : String) (l : List String) :
    String.join (a :: l) = a ++ String.join l := by
  show (a :: l).foldl (fun r s => r ++ s) "" = a ++ l.foldl (fun r s => r ++ s) ""
  rw [List.foldl_cons, foldl_append_factor l ("" ++ a), String.empty_append]

/-- `joinSep` as a head plus separator-prefixed tail parts. -/
lemma joinSep_cons (sep : String) (x : String) (xs : List String) :
    joinSep sep (x :: xs) = x ++ String.join (xs.map fun y => sep ++ y) := by
  induction xs generalizing x with
  | nil => show x = x ++ String.join []; rw [show String.join [] = "" from rfl,
      String.append_empty]
  | cons y ys ih =>
    show x ++ sep ++ joinSep sep (y :: ys) = _
    rw [ih y, List.map_cons, join_cons]
    simp only [String.append_assoc]

/-- `joinSep` on a three-element list. -/
lemma joinSep_three (sep x y z : String) :
    joinSep sep [x, y, z] = x ++ sep ++ y ++ sep ++ z := by
  show x ++ sep ++ (y ++ sep ++ z) = x ++ sep ++ y ++ sep ++ z
  simp only [String.append_assoc]

/-! ## Claim theorems: CSV export shape -/

/-- **C9.** `Review::to_csv` is: the literal header row
`Criterion,Selection,Comments`; then a row of the literal label
`Percent Score`, the percent-score string and an empty field; then one row
per criterion in order, holding the criterion label, the selected option's
label (empty if unanswered) and the comment text — fields joined by a single
comma and rows joined by a single line feed. -/
theorem to_csv_format (r : Review) :
    r.to_csv
      = "Criterion,Selection,Comments" ++ "\n" ++ "Percent Score" ++ ","
        ++ r.percent_score_string ++ "," ++ ""
        ++ String.join (r.criteria.map fun c =>
            "\n" ++ c.label ++ ","
              ++ (match c.selection with
                  | some o => o.label
                  | none => "")
              ++ "," ++ c.comment) := by
  show joinSep "\n"
      (joinSep "," ["Criterion", "Selection", "Comments"]
        :: joinSep "," ["Percent Score", r.percent_score_string, ""]
        :: (r.criteria.map (fun c =>
            [c.label,
             (match c.selection with
              | some o => o.label
              | none => ""),
             c.comment])).map (joinSep ",")) = _
  rw [List.map_map]
  rw [show joinSep "," ["Criterion", "Selection", "Comments"]
    = "Criterion,Selection,Comments" from by decide]
  rw [joinSep_three]
  rw [joinSep_cons, List.map_cons, join_cons]
  have hJ : String.join ((r.criteria.map (joinSep "," ∘ fun c =>
      [c.label,
       (match c.selection with
        | some o => o.label
        | none => ""),
       c.comment])).map (fun y => "\n" ++ y))
      = String.join (r.criteria.map fun c =>
          "\n" ++ c.label ++ ","
            ++ (match c.selection with
                | some o => o.label
                | none => "")
            ++ "," ++ c.comment) := by
    rw [List.map_map]
    refine congrArg String.join (List.map_congr_left fun c hc => ?_)
    show "\n" ++ joinSep ","
      [c.label,
       (match c.selection with
        | some o => o.label
        | none => ""),
       c.comment] = _
    rw [joinSep_three]
    simp only [String.append_assoc]
  rw [hJ]
  simp only [String.append_assoc, String.empty_append, String.append_empty]

/-! ## Helper lemmas: splitting a joined row list -/

/-- `splitOnChar` never returns the empty list. -/
lemma splitOnChar_ne_nil (sep : Char) (l : List Char) :
    splitOnChar sep l ≠ [] := by
  induction l with
  | nil => simp [splitOnChar]
  | cons c rest ih =>
    rw [splitOnChar]
    split_ifs
    · simp
    · cases h : splitOnChar sep rest with
      | nil => simp
      | cons a b => simp

/-- Splitting a list with no separator occurrences yields the single chunk. -/
lemma splitOnChar_of_not_mem (sep : Char) (l : List Char)
    (h : ∀ c ∈ l, c ≠ sep) : splitOnChar sep l = [l] := by
  induction l with
  | nil => rfl
  | cons c rest ih =>
    rw [splitOnChar, if_neg (h c (List.mem_cons_self _ _)),
      ih fun d hd => h d (List.mem_cons_of_mem _ hd)]

/-- Prepending separator-free text extends the first chunk. -/
lemma splitOnChar_append_cons (sep : Char) (a : List Char)
    (h : ∀ c ∈ a, c ≠ sep) :
    ∀ (b chunk : List Char) (chunks : List (List Char)),
      splitOnChar sep b = chunk :: chunks →
      splitOnChar sep (a ++ b) = (a ++ chunk) :: chunks := by
  induction a with
  | nil => intro b chunk chunks hb; simpa using hb
  | cons c a2 ih =>
    intro b chunk chunks hb
    rw [List.cons_append, splitOnChar, if_neg (h c (List.mem_cons_self _ _)),
      ih (fun d hd => h d (List.mem_cons_of_mem _ hd)) b chunk chunks hb]
    rfl

/-- A leading separator opens with an empty chunk. -/
lemma splitOnChar_sep_cons (sep : Char) (l : List Char) :
    splitOnChar sep (sep :: l) = [] :: splitOnChar sep l := by
  rw [splitOnChar, if_pos rfl]

/-- Splitting undoes joining when no part contains the separator. -/
lemma splitOnChar_joinSep (sep : Char) :
    ∀ (rows : List String), rows ≠ [] →
      (∀ row ∈ rows, sep ∉ row.data) →
      splitOnChar sep (joinSep ⟨[sep]⟩ rows).data = rows.map String.data := by
  intro rows
  induction rows with
  | nil => intro h; cases h rfl
  | cons x xs ih =>
    intro hne h
    cases xs with
    | nil =>
      show splitOnChar sep x.data = [x.data]
      exact splitOnChar_of_not_mem sep x.data fun c hc hcs =>
        (h x (List.mem_cons_self _ _)) (hcs ▸ hc)
    | cons y ys =>
      show splitOnChar sep (x ++ ⟨[sep]⟩ ++ joinSep ⟨[sep]⟩ (y :: ys)).data = _
      have hrec := ih (by simp) fun row hrow => h row (List.mem_cons_of_mem _ hrow)
      rw [String.data_append, String.data_append]
      rw [List.append_assoc, show (String.mk [sep]).data = [sep] from rfl,
        List.singleton_append]
      rw [splitOnChar_append_cons sep x.data
        (fun c hc hcs => (h x (List.mem_cons_self _ _)) (hcs ▸ hc))
        _ _ _ (by rw [splitOnChar_sep_cons, hrec])]
      simp

/-- `rustSplit` undoes `joinSep` when no part contains the separator. -/
lemma rustSplit_joinSep (sep : Char) (rows : List String) (hne : rows ≠ [])
    (h : ∀ row ∈ rows, sep ∉ row.data) :
    rustSplit (joinSep ⟨[sep]⟩ rows) sep = rows := by
  rw [rustSplit, splitOnChar_joinSep sep rows hne h, List.map_map]
  exact (List.map_congr_left fun s hs => rfl).trans (List.map_id rows)

/-- Every character of a joined string comes from the separator or a part. -/
lemma mem_joinSep_data (sep : String) (c : Char) :
    ∀ (parts : List String), c ∈ (joinSep sep parts).data →
      c ∈ sep.data ∨ ∃ p ∈ parts, c ∈ p.data := by
  intro parts
  induction parts with
  | nil => intro h; cases h
  | cons x xs ih =>
    cases xs with
    | nil =>
      intro h
      exact Or.inr ⟨x, List.mem_cons_self _ _, h⟩
    | cons y ys =>
      show c ∈ (x ++ sep ++ joinSep sep (y :: ys)).data → _
      rw [String.data_append, String.data_append]
      intro h
      rcases List.mem_append.mp h with h1 | h2
      · rcases List.mem_append.mp h1 with h3 | h4
        · exact Or.inr ⟨x, List.mem_cons_self _ _, h3⟩
        · exact Or.inl h4
      · rcases ih h2 with h5 | ⟨p, hp, hcp⟩
        · exact Or.inl h5
        · exact Or.inr ⟨p, List.mem_cons_of_mem _ hp, hcp⟩

/-- A list with a known last element is nonempty. -/
lemma ne_nil_of_getLast? {α : Type} {l : List α} {a : α}
    (h : l.getLast? = some a) : l ≠ [] := by
  intro hl
  subst hl
  cases h

/-- The last character of a joined row list whose rows all end in `k`. -/
lemma joinSep_data_getLast (sep : String) (k : Char) :
    ∀ (xs : List String) (x : String), x.data.getLast? = some k →
      (∀ y ∈ xs, y.data.getLast? = some k) →
      (joinSep sep (x :: xs)).data.getLast? = some k := by
  intro xs
  induction xs with
  | nil => intro x hx h; exact hx
  | cons y ys ih =>
    intro x hx h
    show ((x ++ sep ++ joinSep sep (y :: ys)).data).getLast? = some k
    have hinner := ih y (h y (List.mem_cons_self _ _))
      fun z hz => h z (List.mem_cons_of_mem _ hz)
    rw [String.data_append,
      List.getLast?_append_of_ne_nil _ (ne_nil_of_getLast? hinner)]
    exact hinner

/-- `rustTrim` is the identity on a string whose first and last characters
are not whitespace. -/
lemma rustTrim_eq_self (s : String) (c1 c2 : Char)
    (h1 : s.data.head? = some c1) (hw1 : c1.isWhitespace = false)
    (h2 : s.data.getLast? = some c2) (hw2 : c2.isWhitespace = false) :
    rustTrim s = s := by
  rw [rustTrim]
  have hd : s.data.dropWhile Char.isWhitespace = s.data := by
    cases hs : s.data with
    | nil => rfl
    | cons a t =>
      rw [hs] at h1
      injection h1 with h1
      subst h1
      rw [List.dropWhile_cons, hw1]
      simp
  rw [hd]
  have hrev : s.data.reverse.head? = some c2 := by
    rw [List.head?_reverse]; exact h2
  have hd2 : s.data.reverse.dropWhile Char.isWhitespace = s.data.reverse := by
    cases hs : s.data.reverse with
    | nil => rfl
    | cons a t =>
      rw [hs] at hrev
      injection hrev with hrev
      subst hrev
      rw [List.dropWhile_cons, hw2]
      simp
  rw [hd2, List.reverse_reverse]

/-! ## Helper lemmas: characters of the percent-score string -/

/-- `Char.ofNat (48 + d)` with `d < 10` is a decimal digit character. -/
lemma ofNat_digit (d : Nat) (h : d < 10) :
    (Char.ofNat (48 + d)).isDigit = true := by
  interval_cases d <;> decide

/-- `natDigitsAux` only adds digit characters. -/
lemma natDigitsAux_digits (fuel : Nat) :
    ∀ (n : Nat) (acc : List Char), (∀ ch ∈ acc, ch.isDigit = true) →
      ∀ ch ∈ natDigitsAux fuel n acc, ch.isDigit = true := by
  induction fuel with
  | zero => intro n acc hacc; exact hacc
  | succ f ih =>
    intro n acc hacc
    have hd : (Char.ofNat (48 + n % 10)).isDigit = true :=
      ofNat_digit (n % 10) (Nat.mod_lt _ (by norm_num))
    have hacc2 : ∀ ch ∈ Char.ofNat (48 + n % 10) :: acc, ch.isDigit = true := by
      intro ch hc
      rcases List.mem_cons.mp hc with rfl | hc2
      · exact hd
      · exact hacc ch hc2
    rw [natDigitsAux]
    split_ifs
    · exact hacc2
    · exact ih (n / 10) _ hacc2

/-- Every character of `natDigits n` is a decimal digit. -/
lemma natDigits_digits (n : Nat) : ∀ ch ∈ natDigits n, ch.isDigit = true :=
  natDigitsAux_digits (n + 1) n [] (by simp)

/-- `natDigitsAux` never shrinks a nonempty accumulator to nothing. -/
lemma natDigitsAux_ne_nil (fuel : Nat) :
    ∀ (n : Nat) (acc : List Char), acc ≠ [] → natDigitsAux fuel n acc ≠ [] := by
  induction fuel with
  | zero => intro n acc hacc; exact hacc
  | succ f ih =>
    intro n acc hacc
    rw [natDigitsAux]
    split_ifs
    · simp
    · exact ih (n / 10) _ (by simp)

/-- `natDigits` is never empty. -/
lemma natDigits_ne_nil (n : Nat) : natDigits n ≠ [] := by
  rw [natDigits, natDigitsAux]
  split_ifs
  · simp
  · exact natDigitsAux_ne_nil n (n / 10) _ (by simp)

/-- A digit character is none of the special characters appearing around the
digits of the percent-score string. -/
lemma digit_ne_special (ch : Char) (h : ch.isDigit = true) :
    ch ≠ ',' ∧ ch ≠ '\n' ∧ ch ≠ '+' ∧ ch ≠ '-' := by
  refine ⟨?_, ?_, ?_, ?_⟩ <;> rintro rfl <;> cases h

/-- The characters of `natToString` are digits. -/
lemma natToString_data (n : Nat) : (natToString n).data = natDigits n := rfl

/-- The percent-score string contains no comma and no line feed, and does
not parse as a score (`from_str` rejects it). -/
lemma percentString_cell (t m : Int) :
    (',' ∉ (percentString t m).data ∧ '\n' ∉ (percentString t m).data) ∧
    CriterionOptionScore.from_str (percentString t m) = none := by
  by_cases hm : m = 0
  · subst hm
    rw [percentString, if_pos rfl]
    split_ifs <;> exact ⟨⟨by decide, by decide⟩, by decide⟩
  · rw [percentString, if_neg hm]
    set h : Int := roundNearest (10000 * t) m with hh
    set A : Nat := h.natAbs / 100 with hA
    set B : Nat := h.natAbs % 100 with hB
    have hdataEq : ((if h < 0 then "-" else "") ++ natToString A ++ "." ++
        twoDigits B ++ "%").data
        = (if h < 0 then ['-'] else []) ++ (natDigits A ++ ('.' ::
            (((if B < 10 then ['0'] else []) ++ natDigits B) ++ ['%']))) := by
      rw [twoDigits]
      simp only [String.data_append]
      split_ifs <;> simp [natToString_data]
    constructor
    · constructor
      · rw [hdataEq]
        intro hmem
        rcases List.mem_append.mp hmem with h1 | h2
        · split_ifs at h1 <;> simp at h1
        · rcases List.mem_append.mp h2 with h3 | h4
          · exact (digit_ne_special _ (natDigits_digits A _ h3)).1 rfl
          · rcases List.mem_cons.mp h4 with h5 | h6
            · cases h5
            · rcases List.mem_append.mp h6 with h7 | h8
              · rcases List.mem_append.mp h7 with h9 | h10
                · split_ifs at h9 <;> simp at h9
                · exact (digit_ne_special _ (natDigits_digits B _ h10)).1 rfl
              · simp at h8
      · rw [hdataEq]
        intro hmem
        rcases List.mem_append.mp hmem with h1 | h2
        · split_ifs at h1 <;> simp at h1
        · rcases List.mem_append.mp h2 with h3 | h4
          · exact (digit_ne_special _ (natDigits_digits A _ h3)).2.1 rfl
          · rcases List.mem_cons.mp h4 with h5 | h6
            · cases h5
            · rcases List.mem_append.mp h6 with h7 | h8
              · rcases List.mem_append.mp h7 with h9 | h10
                · split_ifs at h9 <;> simp at h9
                · exact (digit_ne_special _ (natDigits_digits B _ h10)).2.1 rfl
              · simp at h8
    · -- the string ends in '%', so it does not uppercase to "FATAL", and it
      -- contains '.', so it does not parse as an integer
      have hlast : ((if h < 0 then "-" else "") ++ natToString A ++ "." ++
          twoDigits B ++ "%").data.getLast? = some '%' := by
        rw [String.data_append]
        rw [show ("%" : String).data = ['%'] from rfl, List.getLast?_concat]
      have hnotfatal : rustToUppercase ((if h < 0 then "-" else "") ++
          natToString A ++ "." ++ twoDigits B ++ "%") ≠ FATAL_STR := by
        intro heq
        have hdata2 := congrArg String.data heq
        have hup : (((if h < 0 then "-" else "") ++ natToString A ++ "." ++
            twoDigits B ++ "%").data.map Char.toUpper).getLast?
            = some (Char.toUpper '%') := by
          rw [List.getLast?_map, hlast]; rfl
        rw [show (rustToUppercase ((if h < 0 then "-" else "") ++
            natToString A ++ "." ++ twoDigits B ++ "%")).data
            = ((if h < 0 then "-" else "") ++ natToString A ++ "." ++
              twoDigits B ++ "%").data.map Char.toUpper from rfl] at hdata2
        rw [hdata2] at hup
        have : (FATAL_STR.data).getLast? = some 'L' := by decide
        rw [this] at hup
        cases hup
      have hdot : '.' ∈ ((if h < 0 then "-" else "") ++ natToString A ++
          "." ++ twoDigits B ++ "%").data := by
        rw [hdataEq]
        refine List.mem_append.mpr (Or.inr ?_)
        refine List.mem_append.mpr (Or.inr ?_)
        exact List.mem_cons_self _ _
      have hparse : parseI32 ((if h < 0 then "-" else "") ++ natToString A ++
          "." ++ twoDigits B ++ "%") = none := by
        rw [parseI32]
        suffices hb : base10Value ((if h < 0 then "-" else "") ++
            natToString A ++ "." ++ twoDigits B ++ "%").data = none by
          rw [hb]
        rw [hdataEq]
        have hnz : ∀ (l : List Char), '.' ∈ l → natVal l = none := by
          intro l hl
          rw [natVal, if_neg]
          rintro ⟨-, hall⟩
          have := List.all_eq_true.mp hall '.' hl
          cases this
        set rest : List Char := natDigits A ++ '.' ::
          (((if B < 10 then ['0'] else []) ++ natDigits B) ++ ['%']) with hrest
        have hdotrest : '.' ∈ rest := by
          rw [hrest]
          exact List.mem_append.mpr (Or.inr (List.mem_cons_self _ _))
        split_ifs with hneg
        · rw [List.singleton_append, base10Value, if_neg (by decide),
            if_pos rfl, hnz rest hdotrest]
          rfl
        · rw [List.nil_append]
          rcases hcons : natDigits A with - | ⟨d, ds⟩
          · exact absurd hcons (natDigits_ne_nil A)
          · have hddig : d.isDigit = true := by
              apply natDigits_digits A
              rw [hcons]
              exact List.mem_cons_self _ _
            rw [hrest, hcons, List.cons_append, base10Value,
              if_neg (digit_ne_special d hddig).2.2.1,
              if_neg (digit_ne_special d hddig).2.2.2]
            rw [hnz _ ?_]
            · rfl
            · rw [hrest, hcons] at hdotrest
              exact hdotrest
      rw [CriterionOptionScore.from_str, if_neg hnotfatal, hparse]

/-! ## Helper lemmas: re-importing an exported review -/

/-- A current selection is one of the criterion's options. -/
lemma selection_mem (c : Criterion) (o : CriterionOption)
    (h : c.selection = some o) : o ∈ c.options := by
  rw [Criterion.selection] at h
  cases hsi : c.selection_index with
  | none => simp only [hsi] at h; exact Option.noConfusion h
  | some i =>
    simp only [hsi] at h
    cases hg : c.options.get? i with
    | none => simp only [hg] at h; exact Option.noConfusion h
    | some o2 =>
      simp only [hg] at h
      injection h with h
      exact h ▸ List.get?_mem hg

/-- When no cell parses as a score, no options are produced. -/
lemma optionsFromCells_skip_all :
    ∀ (header cells : List String),
      (∀ cell ∈ cells, CriterionOptionScore.from_str cell = none) →
      optionsFromCells header cells = some [] := by
  intro header cells
  induction cells generalizing header with
  | nil => intro _; rfl
  | cons cell cs ih =>
    intro h
    rw [optionsFromCells, h cell (List.mem_cons_self _ _)]
    exact ih (header.drop 1) fun x hx => h x (List.mem_cons_of_mem _ hx)

/-- An exported three-cell row with an empty final cell ends in a comma. -/
lemma row3_ends_comma (x y : String) :
    (joinSep ⟨[CSV_COL_DELIMITER]⟩ [x, y, ""]).data.getLast? = some ',' := by
  show ((x ++ ⟨[CSV_COL_DELIMITER]⟩) ++ ((y ++ ⟨[CSV_COL_DELIMITER]⟩) ++ "")).data.getLast?
    = some ','
  rw [String.append_empty]
  simp only [String.data_append,
    show (String.mk [CSV_COL_DELIMITER]).data = [','] from rfl]
  rw [List.getLast?_append_of_ne_nil _ (by simp), List.getLast?_concat]
  rfl

/-- Importing the exported criterion rows yields criteria with the original
labels and no options. -/
lemma buildCriteria_roundtrip_rows (header : List String)
    (hlen : header.length = 3) :
    ∀ (l : List Criterion),
      (∀ c ∈ l, ',' ∉ c.label.data) →
      (∀ c ∈ l,
        ',' ∉ (match c.selection with
               | some o => o.label
               | none => "").data ∧
        CriterionOptionScore.from_str
          (match c.selection with
           | some o => o.label
           | none => "") = none) →
      buildCriteria header
        ((l.map fun c =>
          [c.label,
           (match c.selection with
            | some o => o.label
            | none => ""),
           ""]).map (joinSep ⟨[CSV_COL_DELIMITER]⟩))
      = some (l.map fun c => Criterion.new c.label []) := by
  intro l
  induction l with
  | nil => intro _ _; rfl
  | cons c cs ih =>
    intro h1 h2
    rw [List.map_cons, List.map_cons, List.map_cons, buildCriteria]
    have hsplit : rustSplit (joinSep ⟨[CSV_COL_DELIMITER]⟩
        [c.label,
         (match c.selection with
          | some o => o.label
          | none => ""),
         ""]) CSV_COL_DELIMITER
        = [c.label,
           (match c.selection with
            | some o => o.label
            | none => ""),
           ""] := by
      refine rustSplit_joinSep CSV_COL_DELIMITER _ (by simp) ?_
      intro row hrow
      rcases List.mem_cons.mp hrow with rfl | hrow2
      · exact h1 c (List.mem_cons_self _ _)
      rcases List.mem_cons.mp hrow2 with rfl | hrow3
      · exact (h2 c (List.mem_cons_self _ _)).1
      rcases List.mem_cons.mp hrow3 with rfl | hrow4
      · simp
      · cases hrow4
    rw [hsplit, if_pos (by rw [hlen]; rfl)]
    show (match optionsFromCells (header.drop 1) _ with
      | none => none
      | some options =>
        match buildCriteria header _ with
        | none => none
        | some criteria => some (Criterion.new c.label options :: criteria)) = _
    rw [optionsFromCells_skip_all (header.drop 1) _ ?_, ih
      (fun d hd => h1 d (List.mem_cons_of_mem _ hd))
      (fun d hd => h2 d (List.mem_cons_of_mem _ hd))]
    intro cell hcell
    rcases List.mem_cons.mp hcell with rfl | hcell2
    · exact (h2 c (List.mem_cons_self _ _)).2
    rcases List.mem_cons.mp hcell2 with rfl | hcell3
    · decide
    · cases hcell3

/-- **C6 (amended).** Re-importing an exported review does not reproduce the
original criteria: `to_csv` emits the report grammar
(`Criterion,Selection,Comments`) while `from_csv` reads the scorecard
grammar, so for a review with no comments and fatal-free labels (no comma or
line feed, not parsing as a score), `from_csv (to_csv r)` yields one
criterion per exported row — a `Percent Score` criterion followed by
criteria with the original labels — each with an empty option list; hence
its criterion labels are `"Percent Score"` prepended to the originals and
its `max_points` is 0, not the original `max_points`. -/
theorem from_csv_to_csv_roundtrip (r : Review)
    (hcomment : ∀ c ∈ r.criteria, c.comment = "")
    (hlabel : ∀ c ∈ r.criteria, ',' ∉ c.label.data ∧ '\n' ∉ c.label.data)
    (hopt : ∀ c ∈ r.criteria, ∀ o ∈ c.options,
      (',' ∉ o.label.data ∧ '\n' ∉ o.label.data) ∧
      CriterionOptionScore.from_str o.label = none) :
    Review.from_csv r.to_csv
      = some { criteria := Criterion.new SCORE_STR []
          :: r.criteria.map fun c => Criterion.new c.label [] } ∧
    (Review.from_csv r.to_csv).map (fun v => v.criteria.map Criterion.label)
      = some (SCORE_STR :: r.criteria.map Criterion.label) ∧
    (Review.from_csv r.to_csv).map Review.max_points = some 0 := by
  have hmain : Review.from_csv r.to_csv
      = some { criteria := Criterion.new SCORE_STR []
          :: r.criteria.map fun c => Criterion.new c.label [] } := by
    have hselprops : ∀ c ∈ r.criteria,
        (',' ∉ (match c.selection with
                | some o => o.label
                | none => "").data ∧
         '\n' ∉ (match c.selection with
                 | some o => o.label
                 | none => "").data) ∧
        CriterionOptionScore.from_str
          (match c.selection with
           | some o => o.label
           | none => "") = none := by
      intro c hc
      cases hs : c.selection with
      | none => simp only [hs]; exact ⟨⟨by simp, by simp⟩, by decide⟩
      | some o =>
        simp only [hs]
        have hm := selection_mem c o hs
        exact ⟨⟨(hopt c hc o hm).1.1, (hopt c hc o hm).1.2⟩, (hopt c hc o hm).2⟩
    have h0 : Review.to_csv r = joinSep ⟨[CSV_ROW_DELIMITER]⟩
        ("Criterion,Selection,Comments"
          :: joinSep ⟨[CSV_COL_DELIMITER]⟩ [SCORE_STR, r.percent_score_string, ""]
          :: ((r.criteria.map fun c =>
              [c.label,
               (match c.selection with
                | some o => o.label
                | none => ""),
               ""]).map (joinSep ⟨[CSV_COL_DELIMITER]⟩))) := by
      show joinSep ⟨[CSV_ROW_DELIMITER]⟩
        (joinSep ⟨[CSV_COL_DELIMITER]⟩ [CRITERION_STR, SELECTION_STR, COMMENTS_STR]
          :: joinSep ⟨[CSV_COL_DELIMITER]⟩ [SCORE_STR, r.percent_score_string, ""]
          :: ((r.criteria.map fun c =>
              [c.label,
               (match c.selection with
                | some o => o.label
                | none => ""),
               c.comment]).map (joinSep ⟨[CSV_COL_DELIMITER]⟩))) = _
      rw [show joinSep ⟨[CSV_COL_DELIMITER]⟩
          [CRITERION_STR, SELECTION_STR, COMMENTS_STR]
        = "Criterion,Selection,Comments" from by decide]
      rw [show (r.criteria.map fun c =>
          [c.label,
           (match c.selection with
            | some o => o.label
            | none => ""),
           c.comment])
        = (r.criteria.map fun c =>
          [c.label,
           (match c.selection with
            | some o => o.label
            | none => ""),
           ""]) from List.map_congr_left fun c hc => by rw [hcomment c hc]]
    have hnolf : ∀ row ∈ ("Criterion,Selection,Comments"
        :: joinSep ⟨[CSV_COL_DELIMITER]⟩ [SCORE_STR, r.percent_score_string, ""]
        :: ((r.criteria.map fun c =>
            [c.label,
             (match c.selection with
              | some o => o.label
              | none => ""),
             ""]).map (joinSep ⟨[CSV_COL_DELIMITER]⟩))),
        CSV_ROW_DELIMITER ∉ row.data := by
      intro row hrow
      rcases List.mem_cons.mp hrow with rfl | hrow2
      · decide
      rcases List.mem_cons.mp hrow2 with rfl | hrow3
      · intro hmem
        rcases mem_joinSep_data _ _ _ hmem with hsep | ⟨p, hp, hcp⟩
        · revert hsep; decide
        · rcases List.mem_cons.mp hp with rfl | hp2
          · revert hcp; decide
          rcases List.mem_cons.mp hp2 with rfl | hp3
          · exact (percentString_cell r.total_points r.max_points).1.2 hcp
          rcases List.mem_cons.mp hp3 with rfl | hp4
          · cases hcp
          · cases hp4
      · rcases List.mem_map.mp hrow3 with ⟨cells, hc1, rfl⟩
        rcases List.mem_map.mp hc1 with ⟨c, hc, rfl⟩
        intro hmem
        rcases mem_joinSep_data _ _ _ hmem with hsep | ⟨p, hp, hcp⟩
        · revert hsep; decide
        · rcases List.mem_cons.mp hp with rfl | hp2
          · exact (hlabel c hc).2 hcp
          rcases List.mem_cons.mp hp2 with rfl | hp3
          · exact ((hselprops c hc).1.2) hcp
          rcases List.mem_cons.mp hp3 with rfl | hp4
          · cases hcp
          · cases hp4
    have hsplitRows : rustSplit (Review.to_csv r) CSV_ROW_DELIMITER
        = ("Criterion,Selection,Comments"
          :: joinSep ⟨[CSV_COL_DELIMITER]⟩ [SCORE_STR, r.percent_score_string, ""]
          :: ((r.criteria.map fun c =>
              [c.label,
               (match c.selection with
                | some o => o.label
                | none => ""),
               ""]).map (joinSep ⟨[CSV_COL_DELIMITER]⟩))) := by
      rw [h0]
      exact rustSplit_joinSep CSV_ROW_DELIMITER _ (by simp) hnolf
    have hinner : (joinSep ⟨[CSV_ROW_DELIMITER]⟩
        (joinSep ⟨[CSV_COL_DELIMITER]⟩ [SCORE_STR, r.percent_score_string, ""]
          :: ((r.criteria.map fun c =>
              [c.label,
               (match c.selection with
                | some o => o.label
                | none => ""),
               ""]).map (joinSep ⟨[CSV_COL_DELIMITER]⟩)))).data.getLast?
        = some ',' := by
      apply joinSep_data_getLast
      · exact row3_ends_comma SCORE_STR r.percent_score_string
      · intro y hy
        rcases List.mem_map.mp hy with ⟨cells, hc1, rfl⟩
        rcases List.mem_map.mp hc1 with ⟨c, hc, rfl⟩
        exact row3_ends_comma c.label _
    have htrim : rustTrim (Review.to_csv r) = Review.to_csv r := by
      refine rustTrim_eq_self _ 'C' ',' ?_ (by decide) ?_ (by decide)
      · rw [h0]
        show (("Criterion,Selection,Comments" ++ ⟨[CSV_ROW_DELIMITER]⟩
          ++ joinSep ⟨[CSV_ROW_DELIMITER]⟩
            (joinSep ⟨[CSV_COL_DELIMITER]⟩ [SCORE_STR, r.percent_score_string, ""]
              :: ((r.criteria.map fun c =>
                  [c.label,
                   (match c.selection with
                    | some o => o.label
                    | none => ""),
                   ""]).map (joinSep ⟨[CSV_COL_DELIMITER]⟩)))).data).head?
          = some 'C'
        rw [String.data_append, String.data_append, List.append_assoc,
          List.head?_append_of_ne_nil _ (by decide)]
        decide
      · rw [h0]
        show (("Criterion,Selection,Comments" ++ ⟨[CSV_ROW_DELIMITER]⟩
          ++ joinSep ⟨[CSV_ROW_DELIMITER]⟩
            (joinSep ⟨[CSV_COL_DELIMITER]⟩ [SCORE_STR, r.percent_score_string, ""]
              :: ((r.criteria.map fun c =>
                  [c.label,
                   (match c.selection with
                    | some o => o.label
                    | none => ""),
                   ""]).map (joinSep ⟨[CSV_COL_DELIMITER]⟩)))).data).getLast?
          = some ','
        rw [String.data_append,
          List.getLast?_append_of_ne_nil _ (ne_nil_of_getLast? hinner)]
        exact hinner
    have hsplitB : rustSplit (joinSep ⟨[CSV_COL_DELIMITER]⟩
        [SCORE_STR, r.percent_score_string, ""]) CSV_COL_DELIMITER
        = [SCORE_STR, r.percent_score_string, ""] := by
      refine rustSplit_joinSep CSV_COL_DELIMITER _ (by simp) ?_
      intro row hrow
      rcases List.mem_cons.mp hrow with rfl | hrow2
      · decide
      rcases List.mem_cons.mp hrow2 with rfl | hrow3
      · exact (percentString_cell r.total_points r.max_points).1.1
      rcases List.mem_cons.mp hrow3 with rfl | hrow4
      · simp
      · cases hrow4
    have hB : buildCriteria ["Criterion", "Selection", "Comments"]
        (joinSep ⟨[CSV_COL_DELIMITER]⟩ [SCORE_STR, r.percent_score_string, ""]
          :: ((r.criteria.map fun c =>
              [c.label,
               (match c.selection with
                | some o => o.label
                | none => ""),
               ""]).map (joinSep ⟨[CSV_COL_DELIMITER]⟩)))
        = some (Criterion.new SCORE_STR []
            :: r.criteria.map fun c => Criterion.new c.label []) := by
      rw [buildCriteria, hsplitB, if_pos (show
        ([SCORE_STR, r.percent_score_string, ""] : List String).length
          = (["Criterion", "Selection", "Comments"] : List String).length
        from rfl)]
      show (match optionsFromCells ["Selection", "Comments"]
          [r.percent_score_string, ""] with
        | none => none
        | some options =>
          match buildCriteria ["Criterion", "Selection", "Comments"] _ with
          | none => none
          | some criteria =>
            some (Criterion.new SCORE_STR options :: criteria)) = _
      rw [optionsFromCells_skip_all ["Selection", "Comments"]
        [r.percent_score_string, ""] ?_]
      · rw [buildCriteria_roundtrip_rows ["Criterion", "Selection", "Comments"]
          rfl r.criteria (fun c hc => (hlabel c hc).1)
          (fun c hc => ⟨(hselprops c hc).1.1, (hselprops c hc).2⟩)]
      · intro cell hcell
        rcases List.mem_cons.mp hcell with rfl | hcell2
        · exact (percentString_cell r.total_points r.max_points).2
        rcases List.mem_cons.mp hcell2 with rfl | hcell3
        · decide
        · cases hcell3
    simp only [Review.from_csv, htrim, hsplitRows, List.head?_cons,
      List.drop_succ_cons, List.drop_zero]
    rw [show rustSplit "Criterion,Selection,Comments" CSV_COL_DELIMITER
      = ["Criterion", "Selection", "Comments"] from by decide]
    rw [hB]

  refine ⟨hmain, ?_, ?_⟩
  · rw [hmain]
    simp only [Option.map_some']
    have hfuse : (r.criteria.map fun c => Criterion.new c.label []).map
        Criterion.label = r.criteria.map Criterion.label := by
      rw [List.map_map]
      exact List.map_congr_left fun c hc => rfl
    rw [List.map_cons, hfuse]
    rfl
  · rw [hmain]
    simp only [Option.map_some']
    refine congrArg some ?_
    rw [Review.max_points]
    apply List.sum_eq_zero
    intro x hx
    rcases List.mem_cons.mp hx with rfl | hx2
    · rfl
    · rcases List.mem_map.mp hx2 with ⟨y, hy, rfl⟩
      rcases List.mem_map.mp hy with ⟨d, hd, rfl⟩
      rfl

/-- Witness for `from_csv_to_csv_roundtrip`: a one-criterion review whose
option labels do not parse as scores re-imports as a `Percent Score`
criterion plus an optionless `Quality` criterion. -/
theorem from_csv_to_csv_roundtrip_witness :
    Review.from_csv (Review.to_csv (Review.new [Criterion.new "Quality"
        [CriterionOption.new "Good" (CriterionOptionScore.Points 2)]]))
      = some { criteria := [Criterion.new "Percent Score" [],
                            Criterion.new "Quality" []] } :=
  (from_csv_to_csv_roundtrip
    (Review.new [Criterion.new "Quality"
      [CriterionOption.new "Good" (CriterionOptionScore.Points 2)]])
    (by decide) (by decide) (by decide)).1

/-- **C6 (counterexample to the claim as stated).** For the spec's own
example review (one criterion `Criterion 1` with options YES=3, MOSTLY=2,
PARTLY=1, NO=0, unanswered, no comment — labels fatal-free and not parsing
as scores), re-importing the export yields criterion labels
`["Percent Score", "Criterion 1"]`, not an equivalent label set, and
`max_points` 0, not the original 3: the round-trip preserves neither. -/
theorem from_csv_to_csv_roundtrip_counterexample :
    Review.from_csv (Review.to_csv (Review.new [Criterion.new "Criterion 1"
        [CriterionOption.new "YES" (CriterionOptionScore.Points 3),
         CriterionOption.new "MOSTLY" (CriterionOptionScore.Points 2),
         CriterionOption.new "PARTLY" (CriterionOptionScore.Points 1),
         CriterionOption.new "NO" (CriterionOptionScore.Points 0)]]))
      = some { criteria := [Criterion.new "Percent Score" [],
                            Criterion.new "Criterion 1" []] } ∧
    (Review.new [Criterion.new "Criterion 1"
        [CriterionOption.new "YES" (CriterionOptionScore.Points 3),
         CriterionOption.new "MOSTLY" (CriterionOptionScore.Points 2),
         CriterionOption.new "PARTLY" (CriterionOptionScore.Points 1),
         CriterionOption.new "NO" (CriterionOptionScore.Points 0)]]).max_points
      = 3 ∧
    (Review.from_csv (Review.to_csv (Review.new [Criterion.new "Criterion 1"
        [CriterionOption.new "YES" (CriterionOptionScore.Points 3),
         CriterionOption.new "MOSTLY" (CriterionOptionScore.Points 2),
         CriterionOption.new "PARTLY" (CriterionOptionScore.Points 1),
         CriterionOption.new "NO" (CriterionOptionScore.Points 0)]]))).map
      Review.max_points = some 0 := by
  exact ⟨by decide, by decide, by decide⟩
